import Mathlib

/-!
# Verification of the bigiron control plane (shallow embedding)

This file embeds, in Lean, the parts of the bigiron source that the
specification's testable claims are about:

* `src/network.rs` — the Address Allocator: the reservation table
  (`NetState`), `new_reservation`, `remove_reservation`, `add_lease`,
  `del_lease`, and the CIDR host enumeration it relies on (from the
  `ipnet` crate's `Ipv4Net::hosts`).
* `src/models.rs` — the `to_size` size-string parser.
* `src/qemu.rs` — the QMP protocol client: `parse_qapi_stream`,
  `read_response` with its `select::has_data` readiness check, and the
  `Monitor` command helpers.
* `src/vm.rs` — the VM entity operations `running`, `start`, `stop`,
  `cont`, `status`, `destroy`.

Machine integers are modelled as `Nat` with explicit bounds where the
source's behaviour depends on them.  Rust byte-level string operations are
modelled on `List Char`; this coincides with the source for ASCII data,
which is all the claims exercise.  Functions that can panic return an
explicit outcome marking the panic.  Filesystem and socket effects are
made explicit: the persisted table is the `NetState` value threaded
through the allocator functions, and the socket is the list of byte
chunks successive reads would deliver.
-/

/-! ## Decimal and address parsing utilities (Rust `FromStr` behaviour) -/

/-- Accumulate a decimal value over characters; fails on a non-digit.
Mirrors the digit loop of Rust's integer `FromStr`. -/
def digitsToNatAux : List Char → Nat → Option Nat
  | [], acc => some acc
  | c :: cs, acc =>
    if c.isDigit then digitsToNatAux cs (acc * 10 + (c.toNat - 48)) else none

/-- Rust unsigned-integer parsing (`u64::from_str` etc.): an optional
leading `+`, then one or more decimal digits, and the value must be
below `bound` (the type's modulus), else `Err`. -/
def parseUIntBelow (bound : Nat) (cs : List Char) : Option Nat :=
  let body := match cs with
    | '+' :: rest => rest
    | _ => cs
  match body with
  | [] => none
  | _ =>
    match digitsToNatAux body 0 with
    | none => none
    | some v => if v < bound then some v else none

/-- `u64::from_str`. -/
def parseU64 (cs : List Char) : Option Nat := parseUIntBelow (2 ^ 64) cs

/-- `u32::from_str` applied to a whole string (used for pid files). -/
def parseU32 (s : String) : Option Nat := parseUIntBelow (2 ^ 32) s.data

/-- One octet of a Rust `Ipv4Addr`: decimal, at most 255, and leading
zeros are rejected (`"01"` does not parse). No sign is accepted. -/
def parseOctet (cs : List Char) : Option Nat :=
  match cs with
  | [] => none
  | ['0'] => some 0
  | '0' :: _ :: _ => none
  | _ =>
    match digitsToNatAux cs 0 with
    | none => none
    | some v => if v ≤ 255 then some v else none

/-- Split a character list at every occurrence of `sep`, keeping empty
segments — the behaviour of Rust's `str::split` on a one-character
pattern. -/
def splitOnChar (sep : Char) : List Char → List (List Char)
  | [] => [[]]
  | c :: cs =>
    if c == sep then [] :: splitOnChar sep cs
    else
      match splitOnChar sep cs with
      | [] => [[c]]
      | s :: ss => (c :: s) :: ss

/-- `Ipv4Addr::from_str`: exactly four dot-separated octets.  The address
is the 32-bit big-endian value as a `Nat`. -/
def parseIpv4 (s : String) : Option Nat :=
  match (splitOnChar '.' s.data).map parseOctet with
  | [some a, some b, some c, some d] => some (((a * 256 + b) * 256 + c) * 256 + d)
  | _ => none

/-- `Ipv4Addr`'s `Display`: dotted decimal of the four octets. -/
def ipToString (n : Nat) : String :=
  Nat.repr (n / 2 ^ 24 % 256) ++ "." ++ Nat.repr (n / 2 ^ 16 % 256) ++ "."
    ++ Nat.repr (n / 2 ^ 8 % 256) ++ "." ++ Nat.repr (n % 256)

/-- The `ipnet` crate's `Ipv4Net`: the address as written plus the prefix
length (0–32). -/
structure Ipv4Net where
  addr : Nat
  prefixLen : Nat
deriving Repr, DecidableEq

/-- Number of host bits. -/
def Ipv4Net.hostBits (n : Ipv4Net) : Nat := 32 - n.prefixLen

/-- `Ipv4Net::network()`: the address with host bits cleared. -/
def Ipv4Net.network (n : Ipv4Net) : Nat :=
  n.addr / 2 ^ n.hostBits * 2 ^ n.hostBits

/-- `Ipv4Net::broadcast()`: the address with host bits set. -/
def Ipv4Net.broadcast (n : Ipv4Net) : Nat :=
  n.network + (2 ^ n.hostBits - 1)

/-- `Ipv4Net::hosts()`: all addresses of the block in ascending order;
for prefixes shorter than /31 the network and broadcast addresses are
excluded (the `saturating` adjustment in `ipnet`). -/
def Ipv4Net.hosts (n : Ipv4Net) : List Nat :=
  if n.prefixLen < 31 then
    (List.range (2 ^ n.hostBits - 2)).map (fun i => n.network + 1 + i)
  else
    (List.range (2 ^ n.hostBits)).map (fun i => n.network + i)

/-- `Ipv4Net::from_str`: `addr/prefix` with the prefix a `u8` that must
be at most 32. -/
def parseCidr (s : String) : Option Ipv4Net :=
  match splitOnChar '/' s.data with
  | [a, p] =>
    match parseIpv4 (String.mk a), parseUIntBelow 256 p with
    | some addr, some pl => if pl ≤ 32 then some ⟨addr, pl⟩ else none
    | _, _ => none
  | _ => none

/-! ## Address Allocator (`src/network.rs`) -/

/-- One reservation record (`NetInfo` in `network.rs`). -/
structure NetInfo where
  mac : String
  ip : String
  hostname : String
  allocated : Bool
  leased : Bool
deriving Repr, DecidableEq

/-- The persisted reservation table (`NetState`). -/
structure NetState where
  cidr : String
  reservations : List NetInfo
deriving Repr, DecidableEq

/-- `NetState::new()`: the table created when no netstate file exists. -/
def NetState.new : NetState :=
  { cidr := "172.20.0.0/24", reservations := [] }

/-- The existing-record branch of `new_reservation`: find the first
record whose hostname matches, set `allocated = true` in place, and
return the updated record together with the updated list.  `none` when
no record matches. -/
def markAllocated (h : String) : List NetInfo → Option (NetInfo × List NetInfo)
  | [] => none
  | r :: rest =>
    if r.hostname == h then
      let r' := { r with allocated := true }
      some (r', r' :: rest)
    else
      match markAllocated h rest with
      | none => none
      | some (x, l) => some (x, r :: l)

/-- Rust `str::ends_with`, on the character view (byte and character
suffixes coincide here: both the addresses and the suffixes are
ASCII). -/
def strEndsWith (s suffix : String) : Bool :=
  suffix.data.isSuffixOf s.data

/-- `addr.to_string().ends_with(".1") || addr.to_string().ends_with(".255")`
— the "skip gateway and broadcast ranges" test in `new_reservation`. -/
def skipAddr (a : Nat) : Bool :=
  strEndsWith (ipToString a) ".1" || strEndsWith (ipToString a) ".255"

/-- The inner in-use scan of `new_reservation`: each stored `ip` string
is parsed with `unwrap` (`.error ()` models that panic), and the scan
stops at the first record whose address equals the candidate. -/
def inuse (addr : Nat) : List NetInfo → Except Unit Bool
  | [] => .ok false
  | r :: rest =>
    match parseIpv4 r.ip with
    | none => .error ()
    | some ip => if ip == addr then .ok true else inuse addr rest

/-- The free-address loop of `new_reservation`: walk the host addresses
in order, skip the `.1`/`.255`-suffixed ones, and return the first not
in use.  `.ok none` means the loop ended with no free address. -/
def findFree (rs : List NetInfo) : List Nat → Except Unit (Option Nat)
  | [] => .ok none
  | a :: rest =>
    if skipAddr a then findFree rs rest
    else
      match inuse a rs with
      | .error _ => .error ()
      | .ok true => findFree rs rest
      | .ok false => .ok (some a)

/-- The MAC retry loop: `generate_mac` is drawn repeatedly until the
result collides with no stored record.  The randomness is made explicit
as the stream of candidates the generator would produce; the loop takes
the first fresh one. -/
def pickMac (rs : List NetInfo) (candidates : List String) : Option String :=
  candidates.find? (fun m => rs.all (fun r => !(r.mac == m)))

/-- Outcome of `new_reservation`.  `.ok info st` carries the returned
record and the table as saved to disk.  `.capacityPanic` is the
`panic!("No more free addresses on network")` — it aborts before any
record is appended or saved.  `.parsePanic` is an `unwrap` failure on a
stored CIDR or address string.  `.macDepleted` marks the candidate
stream running out (the Rust loop would keep drawing). -/
inductive ResResult where
  | ok (info : NetInfo) (st : NetState)
  | capacityPanic
  | parsePanic
  | macDepleted
deriving Repr, DecidableEq

/-- `new_reservation` (`network.rs`).  The lock acquisition and the file
round-trip are outside the model: `st` is the loaded table and the state
in the result is what `save` persists. -/
def new_reservation (st : NetState) (hostname : String) (macs : List String) : ResResult :=
  match markAllocated hostname st.reservations with
  | some (info, rs') => .ok info { st with reservations := rs' }
  | none =>
    match parseCidr st.cidr with
    | none => .parsePanic
    | some net =>
      match findFree st.reservations net.hosts with
      | .error _ => .parsePanic
      | .ok none => .capacityPanic
      | .ok (some addr) =>
        match pickMac st.reservations macs with
        | none => .macDepleted
        | some mac =>
          let info : NetInfo :=
            { mac := mac, ip := ipToString addr, hostname := hostname,
              allocated := true, leased := false }
          .ok info { st with reservations := st.reservations ++ [info] }

/-- The record walk of `remove_reservation`: clear `allocated` on the
first record whose hostname matches, then delete it if it is neither
allocated nor leased; no match leaves the list untouched (a warning is
logged). -/
def removeRes (h : String) : List NetInfo → List NetInfo
  | [] => []
  | r :: rest =>
    if r.hostname == h then
      let r' := { r with allocated := false }
      if !r'.allocated && !r'.leased then rest else r' :: rest
    else r :: removeRes h rest

/-- `remove_reservation` (`network.rs`). -/
def remove_reservation (st : NetState) (h : String) : NetState :=
  { st with reservations := removeRes h st.reservations }

/-- The record walk of `add_lease`: mark the first record with a
matching ip string as leased (MAC/hostname mismatches are only warned
about), or synthesize an unallocated leased record when none matches. -/
def addLease (mac addr : String) (hostname : Option String) : List NetInfo → List NetInfo
  | [] =>
    [{ mac := mac, ip := addr,
       hostname := (match hostname with | some name => name | none => ""),
       allocated := false, leased := true }]
  | r :: rest =>
    if r.ip == addr then { r with leased := true } :: rest
    else r :: addLease mac addr hostname rest

/-- `add_lease` (`network.rs`). -/
def add_lease (mac addr : String) (hostname : Option String) (st : NetState) : NetState :=
  { st with reservations := addLease mac addr hostname st.reservations }

/-- The record walk of `del_lease`: clear `leased` on the first record
with a matching ip string, then delete it if neither allocated nor
leased; no match is a silent no-op. -/
def delLease (addr : String) : List NetInfo → List NetInfo
  | [] => []
  | r :: rest =>
    if r.ip == addr then
      let r' := { r with leased := false }
      if !r'.allocated && !r'.leased then rest else r' :: rest
    else r :: delLease addr rest

/-- `del_lease` (`network.rs`); the `_mac` and `_hostname` arguments are
unused by the source as well. -/
def del_lease (mac addr : String) (hostname : Option String) (st : NetState) : NetState :=
  { st with reservations := delLease addr st.reservations }

/-! ## Size-string parsing (`src/models.rs`) -/

/-- Outcome of `to_size`.  `.parseErr` is the `Err` from the `?` on
`num.parse::<u64>()`; `.panicked` is the out-of-range byte slicing that
happens before the suffix is examined when the input has fewer than two
bytes. -/
inductive SizeResult where
  | ok (n : Nat)
  | parseErr
  | panicked
deriving Repr, DecidableEq

/-- `to_size` (`models.rs`).  `last` models the one-byte slice
`&s[s.len()-1..]`, `nlast` the slice `&s[s.len()-2..s.len()-1]`; both
slices are taken unconditionally, so an input of fewer than two bytes
panics.  Byte indexing is modelled as character indexing (they coincide
for ASCII input).  The multiplication is unbounded here; the claims'
inputs stay below `u64::MAX`, where the source agrees. -/
def toSizeChars (cs : List Char) : SizeResult :=
  let n := cs.length
  if n < 2 then .panicked
  else
    match cs.getLast?, cs[n - 2]? with
    | some l0, some l1 =>
      let co : Nat := if l0 == 'i' then 1024 else 1000
      let suffix := if l0 == 'i' then l1 else l0
      let num := if l0 == 'i' then cs.take (n - 2) else cs.take (n - 1)
      let exp : Nat :=
        if suffix == 'T' || suffix == 't' || suffix == 'G' || suffix == 'g' then 3
        else if suffix == 'M' || suffix == 'm' then 2
        else if suffix == 'K' || suffix == 'k' then 1
        else 0
      match parseU64 num with
      | none => .parseErr
      | some v => .ok (v * co ^ exp)
    | _, _ => .panicked

/-- `to_size` on the byte view of its argument. -/
def to_size (s : String) : SizeResult := toSizeChars s.data

/-! ## VM entity (`src/vm.rs`) -/

/-- The OS-visible artifacts `VM::running` inspects: existence of the
`monitor.sock` path, existence and contents of the `pid` file, and which
`/proc/<pid>` directories exist. -/
structure VMArtifacts where
  monitorSockExists : Bool
  pidFileExists : Bool
  pidFileContents : String
  procDirExists : Nat → Bool

/-- `VM::running` (`vm.rs`).  `none` models the `expect` panic when the
pid file exists but its contents do not parse as a `u32`; the function
consults nothing but the three filesystem facts. -/
def running (fs : VMArtifacts) : Option Bool :=
  if !fs.monitorSockExists then some false
  else if !fs.pidFileExists then some false
  else
    match parseU32 fs.pidFileContents with
    | none => none
    | some pid => if !fs.procDirExists pid then some false else some true

/-! ## JSON values (`serde_json::Value`, restricted to what QMP uses) -/

/-- A JSON value.  Numbers are integers: the QMP traffic the claims
exercise carries no floating-point literals, and the parser below
rejects them, so the model stays within this subset of `serde_json`. -/
inductive Json where
  | null
  | bool (v : Bool)
  | num (i : Int)
  | str (text : String)
  | arr (items : List Json)
  | obj (fields : List (String × Json))
deriving Repr, Inhabited

/-- `Value::get(key)`: field lookup on an object, `none` on anything
else (serde keeps one entry per key; parsed objects here keep field
order). -/
def Json.getKey : Json → String → Option Json
  | .obj fields, k => fields.lookup k
  | _, _ => none

/-- JSON whitespace, as `serde_json` skips it. -/
def jsonWs (c : Char) : Bool :=
  [' ', '\t', '\n', '\r'].contains c

/-- Drop leading JSON whitespace. -/
def skipWs : List Char → List Char
  | [] => []
  | c :: cs => if jsonWs c then skipWs cs else c :: cs

/-- The two-character escape table of a JSON string, as pairs of the
escape letter and the character it denotes (`\uXXXX` is outside the
modelled subset). -/
def escTable : List (Char × Char) :=
  [('"', '"'), ('\\', '\\'), ('/', '/'), ('n', '\n'), ('t', '\t'),
   ('r', '\r'), ('b', Char.ofNat 8), ('f', Char.ofNat 12)]

/-- One escape character of a JSON string. -/
def unescape (c : Char) : Option Char :=
  escTable.lookup c

/-- Parse the body of a JSON string after the opening quote; returns the
content and the remainder after the closing quote. -/
def parseStrChars : Nat → List Char → Option (List Char × List Char)
  | 0, _ => none
  | _ + 1, [] => none
  | fuel + 1, c :: rest =>
    if c == '"' then some ([], rest)
    else if c == '\\' then
      match rest with
      | [] => none
      | e :: rest2 =>
        match unescape e with
        | none => none
        | some u =>
          match parseStrChars fuel rest2 with
          | none => none
          | some (s, r) => some (u :: s, r)
    else
      match parseStrChars fuel rest with
      | none => none
      | some (s, r) => some (c :: s, r)

/-- Parse a JSON unsigned integer literal: one or more digits, no
leading zero before further digits, and not followed by a fraction or
exponent (floats are outside the modelled subset). -/
def parseJsonNat (cs : List Char) : Option (Nat × List Char) :=
  match cs.span (fun c => c.isDigit) with
  | ([], _) => none
  | (d :: ds, r) =>
    if d == '0' && !ds.isEmpty then none
    else
      match r with
      | '.' :: _ => none
      | 'e' :: _ => none
      | 'E' :: _ => none
      | _ =>
        match digitsToNatAux (d :: ds) 0 with
        | none => none
        | some v => some (v, r)

mutual

/-- Parse one JSON value (recursive descent, fuelled). -/
def parseVal : Nat → List Char → Option (Json × List Char)
  | 0, _ => none
  | fuel + 1, cs =>
    match skipWs cs with
    | [] => none
    | c :: rest =>
      if c == '{' then parseObjBody fuel rest
      else if c == '[' then parseArrBody fuel rest
      else if c == '"' then
        match parseStrChars (fuel + 1) rest with
        | none => none
        | some (s, r) => some (.str (String.mk s), r)
      else if c == '-' then
        match parseJsonNat rest with
        | none => none
        | some (v, r) => some (.num (-(v : Int)), r)
      else
        match c :: rest with
        | 't' :: 'r' :: 'u' :: 'e' :: r => some (.bool true, r)
        | 'f' :: 'a' :: 'l' :: 's' :: 'e' :: r => some (.bool false, r)
        | 'n' :: 'u' :: 'l' :: 'l' :: r => some (.null, r)
        | cs2 =>
          match parseJsonNat cs2 with
          | none => none
          | some (v, r) => some (.num (v : Int), r)

/-- Parse an object after the opening brace. -/
def parseObjBody (fuel : Nat) (cs : List Char) : Option (Json × List Char) :=
  match fuel with
  | 0 => none
  | fuel + 1 =>
    match skipWs cs with
    | '}' :: r => some (.obj [], r)
    | cs2 => parseMembers fuel cs2 []

/-- Parse the `"key": value` members of an object, accumulating fields
in order. -/
def parseMembers (fuel : Nat) (cs : List Char) (acc : List (String × Json)) :
    Option (Json × List Char) :=
  match fuel with
  | 0 => none
  | fuel + 1 =>
    match skipWs cs with
    | '"' :: rest =>
      match parseStrChars (fuel + 1) rest with
      | none => none
      | some (k, r1) =>
        match skipWs r1 with
        | ':' :: r2 =>
          match parseVal fuel r2 with
          | none => none
          | some (v, r3) =>
            match skipWs r3 with
            | ',' :: r4 => parseMembers fuel r4 (acc ++ [(String.mk k, v)])
            | '}' :: r4 => some (.obj (acc ++ [(String.mk k, v)]), r4)
            | _ => none
        | _ => none
    | _ => none

/-- Parse an array after the opening bracket. -/
def parseArrBody (fuel : Nat) (cs : List Char) : Option (Json × List Char) :=
  match fuel with
  | 0 => none
  | fuel + 1 =>
    match skipWs cs with
    | ']' :: r => some (.arr [], r)
    | cs2 => parseElems fuel cs2 []

/-- Parse the comma-separated elements of an array. -/
def parseElems (fuel : Nat) (cs : List Char) (acc : List Json) :
    Option (Json × List Char) :=
  match fuel with
  | 0 => none
  | fuel + 1 =>
    match parseVal fuel cs with
    | none => none
    | some (v, r) =>
      match skipWs r with
      | ',' :: r2 => parseElems fuel r2 (acc ++ [v])
      | ']' :: r2 => some (.arr (acc ++ [v]), r2)
      | _ => none

end

/-- `serde_json::from_slice` for one framing slice: a single value with
nothing but whitespace around it. -/
def Json.parseStr (cs : List Char) : Option Json :=
  match parseVal (3 * cs.length + 8) cs with
  | some (v, rest) => if skipWs rest = [] then some v else none
  | none => none

/-! ## QMP protocol client (`src/qemu.rs`, `src/qemu/qmp.rs`) -/

/-- `qmp::Timestamp`. -/
structure Timestamp where
  seconds : Nat
  microseconds : Nat
deriving Repr, DecidableEq

/-- `qmp::Event`: the decoded form of an asynchronous notification;
`extra` is the `#[serde(flatten)]` remainder. -/
structure QmpEvent where
  timestamp : Timestamp
  event : String
  extra : List (String × Json)
deriving Repr

/-- `qmp::Response`: the externally tagged enum over `return`/`error`.
`.ret` carries the flattened extra fields of `Return`; `.err` carries
`class`, `desc` and the flattened remainder of `Error`. -/
inductive QmpResponse where
  | ret (extra : List (String × Json))
  | err (cls desc : String) (extra : List (String × Json))
deriving Repr

/-- Decode a `u64` field. -/
def decodeU64 : Json → Option Nat
  | .num n => if 0 ≤ n ∧ n < (2 : Int) ^ 64 then some n.toNat else none
  | _ => none

/-- Decode `qmp::Timestamp` (unknown fields are ignored, serde's
default). -/
def decodeTimestamp (v : Json) : Option Timestamp :=
  match v with
  | .obj fields =>
    match fields.lookup "seconds", fields.lookup "microseconds" with
    | some sj, some mj =>
      match decodeU64 sj, decodeU64 mj with
      | some s, some m => some ⟨s, m⟩
      | _, _ => none
    | _, _ => none
  | _ => none

/-- Decode `qmp::Event` from a JSON value (`serde_json::from_value`):
`timestamp` and `event` are required, everything else lands in the
flattened `extra` map. -/
def decodeEvent (v : Json) : Option QmpEvent :=
  match v with
  | .obj fields =>
    match fields.lookup "timestamp", fields.lookup "event" with
    | some tj, some (.str e) =>
      match decodeTimestamp tj with
      | none => none
      | some ts =>
        some ⟨ts, e, fields.filter (fun kv => !(kv.1 == "timestamp") && !(kv.1 == "event"))⟩
    | _, _ => none
  | _ => none

/-- Decode the payload of the `return` variant: any object, captured
whole by the flattened map. -/
def decodeReturn (v : Json) : Option (List (String × Json)) :=
  match v with
  | .obj fields => some fields
  | _ => none

/-- Decode the payload of the `error` variant: `class` and `desc` are
required strings. -/
def decodeQmpError (v : Json) : Option (String × String × List (String × Json)) :=
  match v with
  | .obj fields =>
    match fields.lookup "class", fields.lookup "desc" with
    | some (.str c), some (.str d) =>
      some (c, d, fields.filter (fun kv => !(kv.1 == "class") && !(kv.1 == "desc")))
    | _, _ => none
  | _ => none

/-- Decode `qmp::Response` (`serde_json::from_value`): an externally
tagged enum is a single-entry object keyed by the lowercase variant
name; anything else fails. -/
def decodeResponse (v : Json) : Option QmpResponse :=
  match v with
  | .obj [(k, body)] =>
    if k == "return" then
      match decodeReturn body with
      | some extra => some (.ret extra)
      | none => none
    else if k == "error" then
      match decodeQmpError body with
      | some (c, d, extra) => some (.err c d extra)
      | none => none
    else none
  | _ => none

/-- `buf.split_mut(|byt| byt == &b"\r"[0])`: split a read buffer on
carriage returns, keeping empty slices (they are filtered next). -/
def splitOnCR : List Char → List (List Char)
  | [] => [[]]
  | c :: cs =>
    if c == '\r' then [] :: splitOnCR cs
    else
      match splitOnCR cs with
      | [] => [[c]]
      | s :: ss => (c :: s) :: ss

/-- `parse_qapi_stream` (`qemu.rs`): split on CR, drop empty and
lone-`\n` slices, and parse each remaining slice as one JSON value.
`none` models the `unwrap` panic on a malformed slice. -/
def parse_qapi_stream (cs : List Char) : Option (List Json) :=
  ((splitOnCR cs).filter (fun sl => !(sl.isEmpty || sl == ['\n']))).mapM Json.parseStr

/-- How a call of `read_response` ends.  `.reply` is the correlated
`return`/`error` message; `.decodeErr` a `serde_json::from_value`
failure propagated with `?`; `.panicked` the `unwrap` inside
`parse_qapi_stream`; `.noResponse` the `Err("no reponse found")` after
the loop; `.blocked` models `select::has_data(fd, true)` sleeping
forever in `select(2)` with a null timeout because no further data ever
arrives. -/
inductive DrainResult where
  | reply (r : QmpResponse)
  | decodeErr
  | panicked
  | noResponse
  | blocked
deriving Repr

/-- `true` exactly on `.noResponse`. -/
def DrainResult.isNoResponse : DrainResult → Bool
  | .noResponse => true
  | _ => false

/-- The inner per-buffer loop of `read_response`: inspect each parsed
value in order; a value with an `event` key is decoded and logged (the
accumulator), any other value is decoded as the response and returned.
`none` in the second component means the buffer held only events and
the read loop continues. -/
def drainVals : List Json → List QmpEvent → List QmpEvent × Option DrainResult
  | [], acc => (acc, none)
  | v :: vs, acc =>
    if (v.getKey "event").isSome then
      match decodeEvent v with
      | none => (acc, some .decodeErr)
      | some e => drainVals vs (acc ++ [e])
    else
      match decodeResponse v with
      | none => (acc, some .decodeErr)
      | some r => (acc, some (.reply r))

/-- The drain loop of `read_response`, parameterised by the `block`
flag passed to `select::has_data`.  The socket is modelled as the list
of byte chunks successive reads would deliver; when it is exhausted,
`has_data` with `block = true` never returns (null timeout select),
while with `block = false` it reports no data and the loop falls
through to the `Err("no reponse found")`. -/
def readResponseWith (block : Bool) : List (List Char) → List QmpEvent → List QmpEvent × DrainResult
  | [], acc => (acc, if block then .blocked else .noResponse)
  | c :: cs, acc =>
    match parse_qapi_stream c with
    | none => (acc, .panicked)
    | some vs =>
      match drainVals vs acc with
      | (acc2, some res) => (acc2, res)
      | (acc2, none) => readResponseWith block cs acc2

/-- `read_response` (`qemu.rs`): the call site passes `block = true` to
`select::has_data` (`qemu.rs` line 272). -/
def read_response (chunks : List (List Char)) : List QmpEvent × DrainResult :=
  readResponseWith true chunks []

/-- The repository's own regression buffer
(`test_parse_qapi_stream` in `qemu.rs`): one event object and one
return object separated by CR-LF. -/
def qapiTestBuf : String :=
  "\x7b\"timestamp\": \x7b\"seconds\": 1677200460, \"microseconds\": 774479\x7d, \"event\": \"STOP\"\x7d\r\n\x7b\"return\": \x7b\x7d\x7d\r\n"

/-! ## Monitor command helpers and VM operations (`src/qemu.rs`, `src/vm.rs`) -/

/-- The hypervisor side of one monitor session, as `Monitor::connect`
and `Monitor::execute` observe it: whether the greeting reads and
parses, the reply to the `qmp_capabilities` negotiation, and the reply
to each subsequently executed command. -/
structure MonWorld where
  greetingOk : Bool
  negotiateReply : QmpResponse
  cmdReply : String → QmpResponse

/-- `Monitor::connect` (`qemu.rs`): read the greeting (any failure is
fatal), send `qmp_capabilities`, and fail if the reply is an error.
The second component lists the protocol commands written during the
call. -/
def monitorConnect (w : MonWorld) : Except String Unit × List String :=
  if !w.greetingOk then (.error "greeting parse error", [])
  else
    match w.negotiateReply with
    | .err _ d _ => (.error ("Error from qemu monitor: \"" ++ d ++ "\""), ["qmp_capabilities"])
    | .ret _ => (.ok (), ["qmp_capabilities"])

/-- `Monitor::execute` (`qemu.rs`): write `{"execute": cmd}`, read the
response, and turn an `error` reply into a client-level error carrying
the server's description. -/
def monitorExecute (w : MonWorld) (cmd : String) :
    Except String (List (String × Json)) × List String :=
  match w.cmdReply cmd with
  | .err _ d _ => (.error ("Error from qemu monitor: \"" ++ d ++ "\""), [cmd])
  | .ret extra => (.ok extra, [cmd])

/-- `VM::monitor` followed by `Monitor::execute`: the shared shape of
`stop`/`cont`/`status`/`destroy` in `vm.rs` — require `running`, open a
fresh monitor, and issue one command.  The list collects every protocol
command written. -/
def vmCommand (running : Bool) (w : MonWorld) (cmd : String) :
    Except String (List (String × Json)) × List String :=
  if !running then (.error "VM not started", [])
  else
    match monitorConnect w with
    | (.error e, tc) => (.error e, tc)
    | (.ok _, tc) =>
      match monitorExecute w cmd with
      | (res, te) => (res, tc ++ te)

/-- `VM::stop`: issue `stop`, discard the reply payload. -/
def vm_stop (running : Bool) (w : MonWorld) : Except String Unit × List String :=
  match vmCommand running w "stop" with
  | (.error e, t) => (.error e, t)
  | (.ok _, t) => (.ok (), t)

/-- `VM::cont`: issue `cont`, discard the reply payload. -/
def vm_cont (running : Bool) (w : MonWorld) : Except String Unit × List String :=
  match vmCommand running w "cont" with
  | (.error e, t) => (.error e, t)
  | (.ok _, t) => (.ok (), t)

/-- `VM::destroy`: issue `quit` via `Monitor::quit`. -/
def vm_destroy (running : Bool) (w : MonWorld) : Except String Unit × List String :=
  match vmCommand running w "quit" with
  | (.error e, t) => (.error e, t)
  | (.ok _, t) => (.ok (), t)

/-- `VM::status`: issue `query-status` and extract the `status` string
from the reply's extra fields; `none` models the `unwrap` panics when
the field is missing or not a string. -/
def vm_status (running : Bool) (w : MonWorld) :
    Except String (Option String) × List String :=
  match vmCommand running w "query-status" with
  | (.error e, t) => (.error e, t)
  | (.ok extra, t) =>
    (.ok (match extra.lookup "status" with
          | some (Json.str s) => some s
          | _ => none), t)

/-- The effect of a successful `VM::start`: hand the spec to the
Process Supervisor (`qemu::Process::launch`). -/
inductive StartEffect where
  | launch
deriving Repr, DecidableEq

/-- `VM::start` (`vm.rs`): error if already running, otherwise launch
via the supervisor. -/
def vm_start (running : Bool) : Except String StartEffect :=
  if running then .error "VM already started" else .ok .launch

/-! ## Helper instances and lemmas -/

deriving instance DecidableEq for Except

/-- `toSizeChars` on an input whose final character is outside the
recognized suffix set and is not the binary marker `i`: the final
character is dropped, the multiplier is `1000 ^ 0 = 1`, and the result
is whatever the remaining prefix parses to. -/
lemma toSizeChars_unrecognized (body : List Char) (c : Char)
    (hne : body ≠ [])
    (hc : (c == 'T' || c == 't' || c == 'G' || c == 'g' || c == 'M' || c == 'm'
           || c == 'K' || c == 'k' || c == 'i') = false) :
    toSizeChars (body ++ [c]) =
      match parseU64 body with
      | some v => SizeResult.ok v
      | none => SizeResult.parseErr := by
  have hnl : 0 < body.length := List.length_pos.mpr hne
  simp only [Bool.or_eq_false_iff] at hc
  obtain ⟨⟨⟨⟨⟨⟨⟨⟨hT, ht⟩, hG⟩, hg⟩, hM⟩, hm⟩, hK⟩, hk⟩, hi⟩ := hc
  unfold toSizeChars
  simp only [List.length_append, List.length_cons, List.length_nil]
  rw [if_neg (by omega)]
  have hidx : body.length + 1 - 2 = body.length - 1 := by omega
  rw [List.getLast?_concat, hidx, List.getElem?_append_left (by omega),
    ← List.getLast?_eq_getElem?]
  rcases hgl : body.getLast? with _ | l1
  · exact absurd (List.getLast?_isSome.mpr hne) (by simp [hgl])
  · simp only [hi, Bool.false_eq_true, if_false, hT, ht, hG, hg, hM, hm, hK, hk]
    have htake : (body ++ [c]).take (body.length + 1 - 1) = body := by
      simpa using List.take_left body [c]
    rw [htake]
    cases parseU64 body <;> simp

/-! ## Claim C9 (corrected) -/

/-- C9, counterexample: `"100x"` has a suffix outside the recognized
grammar `{k,m,g,t}` (with optional `i`), yet `to_size` returns
`Ok(100)` — the unrecognized final byte falls into the `_ => 0`
exponent arm and is simply dropped, so no parse error occurs. -/
theorem toSize_unrecognized_suffix_no_error : to_size "100x" = SizeResult.ok 100 := by rfl

/-- C9, amended: `to_size` parses a decimal number with a
case-insensitive suffix from `{k,m,g,t}` and optional binary `i`
modifier (`"100M"` → 100 000 000, `"12Gi"` → 12·1024³), but an input
whose final character is outside that grammar is NOT rejected as such:
the final character is dropped with multiplier 1, and a parse error is
returned only when the remaining prefix fails to parse as a decimal
number (as in `"12Timmies"`). -/
theorem toSize_suffix_grammar :
    to_size "100M" = SizeResult.ok 100000000 ∧
    to_size "12Gi" = SizeResult.ok 12884901888 ∧
    to_size "12Timmies" = SizeResult.parseErr ∧
    ∀ (s : String) (body : List Char) (c : Char),
      s.data = body ++ [c] → body ≠ [] →
      (c == 'T' || c == 't' || c == 'G' || c == 'g' || c == 'M' || c == 'm'
       || c == 'K' || c == 'k' || c == 'i') = false →
      to_size s = (match parseU64 body with
                   | some v => SizeResult.ok v
                   | none => SizeResult.parseErr) := by
  refine ⟨by rfl, by rfl, by rfl, ?_⟩
  intro s body c hdata hne hc
  rw [to_size, hdata]
  exact toSizeChars_unrecognized body c hne hc

/-- C9, witness: the amended suffix behaviour applied to `"77q"`. -/
theorem toSize_suffix_grammar_witness :
    "77q".data = ['7', '7'] ++ ['q'] ∧ to_size "77q" = SizeResult.ok 77 := by
  refine ⟨rfl, ?_⟩
  have h := toSize_suffix_grammar.2.2.2 "77q" ['7', '7'] 'q' rfl (by decide) (by decide)
  simpa using h

/-! ## Claim C10 (confirmed) -/

/-- C10: on any input of fewer than two bytes (modelled as characters;
they coincide on ASCII inputs such as `"5"` and `""`), `to_size`
panics from the unconditional out-of-range slice `&s[s.len()-2..]`
taken before the suffix is examined, instead of returning a parse
error. -/
theorem toSize_short_input_panics :
    ∀ s : String, s.data.length < 2 → to_size s = SizeResult.panicked := by
  intro s h
  rw [to_size]
  unfold toSizeChars
  rw [if_pos h]

/-- C10, witness: `"5"` and `""` both panic. -/
theorem toSize_short_input_panics_witness :
    "5".data.length < 2 ∧ to_size "5" = SizeResult.panicked ∧
    "".data.length < 2 ∧ to_size "" = SizeResult.panicked :=
  ⟨by decide, toSize_short_input_panics "5" (by decide),
   by decide, toSize_short_input_panics "" (by decide)⟩

/-! ## Claim C5 (corrected) -/

/-- When the per-buffer inspection loop ends a `read_response` call, the
result is a reply, a decode error, or a panic — never the no-response
error. -/
lemma drainVals_some_not_noResponse :
    ∀ (vs : List Json) (acc acc2 : List QmpEvent) (res : DrainResult),
      drainVals vs acc = (acc2, some res) → res.isNoResponse = false := by
  intro vs
  induction vs with
  | nil => intro acc acc2 res h; simp [drainVals] at h
  | cons v vs ih =>
    intro acc acc2 res h
    simp only [drainVals] at h
    split at h
    · split at h
      · injection h with h1 h2; injection h2 with h3; subst h3; rfl
      · exact ih _ _ _ h
    · split at h
      · injection h with h1 h2; injection h2 with h3; subst h3; rfl
      · injection h with h1 h2; injection h2 with h3; subst h3; rfl

/-- With `block = true` (the flag `read_response` actually passes), the
drain loop can never fall through to the no-response error: when the
socket is exhausted it blocks in `select(2)` instead. -/
lemma readResponseWith_true_no_noResponse :
    ∀ (chunks : List (List Char)) (acc : List QmpEvent),
      ((readResponseWith true chunks acc).2).isNoResponse = false := by
  intro chunks
  induction chunks with
  | nil => intro acc; rfl
  | cons c cs ih =>
    intro acc
    unfold readResponseWith
    rcases hp : parse_qapi_stream c with _ | vs
    · simp only [hp]
      rfl
    · simp only [hp]
      rcases hd : drainVals vs acc with ⟨acc2, o⟩
      rcases o with _ | res
      · simp only [hd]
        exact ih acc2
      · simp only [hd]
        exact drainVals_some_not_noResponse vs acc acc2 res hd

/-- C5, counterexample: after the buffered data is consumed with no
reply found, `read_response` (which passes `block = true` to
`select::has_data`, `qemu.rs` line 272) blocks in a `select(2)` call
with a null timeout; it does not return the fatal no-response error the
claim requires. -/
theorem readResponse_exhausted_blocks :
    read_response [] = ([], DrainResult.blocked) ∧
    ((read_response []).2).isNoResponse = false :=
  ⟨rfl, rfl⟩

/-- C5, amended: the readiness check before each read is the BLOCKING
variant of `select::has_data` (null timeout), so a `read_response` call
never produces the `Err("no reponse found")` outcome — on a socket
exhausted with no reply it blocks awaiting more data.  Only the
non-blocking variant (`block = false`), which `read_response` does not
use, would return the no-response error on an exhausted socket. -/
theorem readResponse_blocking_readiness :
    (∀ chunks : List (List Char), ((read_response chunks).2).isNoResponse = false) ∧
    read_response [] = ([], DrainResult.blocked) ∧
    readResponseWith false [] [] = ([], DrainResult.noResponse) :=
  ⟨fun chunks => readResponseWith_true_no_noResponse chunks [], rfl, rfl⟩

/-! ## Claim C6 (confirmed) -/

/-- C6: `running` is true exactly when the monitor socket exists, the
pid file exists, and `/proc/<pid>` exists for the pid parsed from the
pid file; if the socket or the pid file is absent it is false without
reading anything further.  The function's domain is the filesystem
artifacts alone — it consults no protocol state. -/
theorem running_iff_artifacts :
    (∀ (fs : VMArtifacts) (pid : Nat),
      parseU32 fs.pidFileContents = some pid →
      running fs = some (fs.monitorSockExists && (fs.pidFileExists && fs.procDirExists pid))) ∧
    (∀ fs : VMArtifacts,
      fs.monitorSockExists = false ∨ fs.pidFileExists = false →
      running fs = some false) := by
  constructor
  · intro fs pid hp
    unfold running
    rcases hms : fs.monitorSockExists <;> rcases hpf : fs.pidFileExists <;>
      simp [hms, hpf, hp] <;> rcases hpd : fs.procDirExists pid <;> simp [hpd]
  · intro fs h
    unfold running
    rcases h with h | h <;> rcases hms : fs.monitorSockExists <;>
      rcases hpf : fs.pidFileExists <;> simp_all

/-- C6, witness: a VM with socket, pid file `"42"` and live `/proc/42`
is running; one with no socket is not. -/
theorem running_iff_artifacts_witness :
    running ⟨true, true, "42", fun p => p == 42⟩ = some true ∧
    running ⟨false, true, "42", fun p => p == 42⟩ = some false := by
  constructor
  · have h := running_iff_artifacts.1 ⟨true, true, "42", fun p => p == 42⟩ 42 (by decide)
    simpa using h
  · exact running_iff_artifacts.2 ⟨false, true, "42", fun p => p == 42⟩ (Or.inl rfl)

/-! ## Claims C1 and C3: allocator record-walk lemmas -/

/-- `remove_reservation`'s walk on a list whose first hostname match is
`r`: `allocated` is cleared, and the record is dropped exactly when it
was not leased. -/
lemma removeRes_spec :
    ∀ (pre : List NetInfo) (r : NetInfo) (post : List NetInfo) (h : String),
      (∀ x ∈ pre, (x.hostname == h) = false) → (r.hostname == h) = true →
      removeRes h (pre ++ r :: post) =
        pre ++ (if r.leased then [{ r with allocated := false }] else []) ++ post := by
  intro pre
  induction pre with
  | nil =>
    intro r post h _ hr
    rcases hl : r.leased <;> simp [removeRes, hr, hl]
  | cons x xs ih =>
    intro r post h hpre hr
    have hx : (x.hostname == h) = false := hpre x (by simp)
    simp only [List.cons_append, removeRes, hx, Bool.false_eq_true, if_false, List.append_eq]
    rw [ih r post h (fun y hy => hpre y (by simp [hy])) hr]

/-- `del_lease`'s walk on a list whose first ip match is `r`: `leased`
is cleared, and the record is dropped exactly when it was not
allocated. -/
lemma delLease_spec :
    ∀ (pre : List NetInfo) (r : NetInfo) (post : List NetInfo) (addr : String),
      (∀ x ∈ pre, (x.ip == addr) = false) → (r.ip == addr) = true →
      delLease addr (pre ++ r :: post) =
        pre ++ (if r.allocated then [{ r with leased := false }] else []) ++ post := by
  intro pre
  induction pre with
  | nil =>
    intro r post addr _ hr
    rcases hl : r.allocated <;> simp [delLease, hr, hl]
  | cons x xs ih =>
    intro r post addr hpre hr
    have hx : (x.ip == addr) = false := hpre x (by simp)
    simp only [List.cons_append, delLease, hx, Bool.false_eq_true, if_false, List.append_eq]
    rw [ih r post addr (fun y hy => hpre y (by simp [hy])) hr]

/-- The existing-record branch of `new_reservation` on a list whose
first hostname match is `r`: the record is marked allocated in place
and returned; nothing else changes. -/
lemma markAllocated_spec :
    ∀ (pre : List NetInfo) (r : NetInfo) (post : List NetInfo) (h : String),
      (∀ x ∈ pre, (x.hostname == h) = false) → (r.hostname == h) = true →
      markAllocated h (pre ++ r :: post) =
        some ({ r with allocated := true }, pre ++ { r with allocated := true } :: post) := by
  intro pre
  induction pre with
  | nil =>
    intro r post h _ hr
    simp [markAllocated, hr]
  | cons x xs ih =>
    intro r post h hpre hr
    have hx : (x.hostname == h) = false := hpre x (by simp)
    simp only [List.cons_append, markAllocated, hx, Bool.false_eq_true, if_false, List.append_eq]
    rw [ih r post h (fun y hy => hpre y (by simp [hy])) hr]

/-! ## Claim C3 (confirmed) -/

/-- C3: when a record for the hostname already exists, `new_reservation`
marks it `allocated = true` and returns it otherwise unchanged; a second
call with no intervening `remove_reservation` returns the identical
record (same IP and MAC) and leaves the table — and in particular its
length — unchanged. -/
theorem newReservation_idempotent :
    ∀ (st : NetState) (h : String) (macs macs2 : List String)
      (pre : List NetInfo) (r : NetInfo) (post : List NetInfo),
      st.reservations = pre ++ r :: post →
      (∀ x ∈ pre, (x.hostname == h) = false) →
      (r.hostname == h) = true →
      new_reservation st h macs =
        .ok { r with allocated := true }
            { st with reservations := pre ++ { r with allocated := true } :: post } ∧
      new_reservation { st with reservations := pre ++ { r with allocated := true } :: post } h macs2 =
        .ok { r with allocated := true }
            { st with reservations := pre ++ { r with allocated := true } :: post } ∧
      (pre ++ ({ r with allocated := true } : NetInfo) :: post).length = st.reservations.length := by
  intro st h macs macs2 pre r post hst hpre hr
  have h1 := markAllocated_spec pre r post h hpre hr
  have h2 := markAllocated_spec pre { r with allocated := true } post h hpre hr
  refine ⟨?_, ?_, ?_⟩
  · unfold new_reservation
    rw [hst, h1]
  · unfold new_reservation
    simp only []
    rw [h2]
  · simp [hst]

/-- C3, witness: re-reserving `"vm1"`, whose record exists with
`allocated = false, leased = true`, returns the same IP/MAC with
`allocated` set, twice over, without growing the table. -/
theorem newReservation_idempotent_witness :
    new_reservation
        ⟨"172.20.0.0/24",
          [{ mac := "00:16:3e:aa:bb:cc", ip := "172.20.0.2", hostname := "vm1",
             allocated := false, leased := true }]⟩ "vm1" [] =
      .ok { mac := "00:16:3e:aa:bb:cc", ip := "172.20.0.2", hostname := "vm1",
            allocated := true, leased := true }
          ⟨"172.20.0.0/24",
            [{ mac := "00:16:3e:aa:bb:cc", ip := "172.20.0.2", hostname := "vm1",
               allocated := true, leased := true }]⟩ := by
  have h := (newReservation_idempotent
    ⟨"172.20.0.0/24",
      [{ mac := "00:16:3e:aa:bb:cc", ip := "172.20.0.2", hostname := "vm1",
         allocated := false, leased := true }]⟩ "vm1" [] []
    [] { mac := "00:16:3e:aa:bb:cc", ip := "172.20.0.2", hostname := "vm1",
         allocated := false, leased := true } []
    rfl (by simp) (by decide)).1
  simpa using h

/-! ## Claim C1 (confirmed) -/

/-- C1: a record is retained exactly while `allocated OR leased` holds.
`remove_reservation` clears `allocated` on the first hostname match and
deletes the record precisely when `leased` is also false;
`del_lease` clears `leased` on the first ip match and deletes precisely
when `allocated` is also false.  In particular the lifecycle
`new_reservation(h)` → `add_lease(mac, ip)` → `remove_reservation(h)`
(from the freshly initialized table) keeps the record alive as a pure
lease, and a subsequent `del_lease(mac, ip)` purges it. -/
theorem reservation_retention_invariant :
    (∀ (st : NetState) (h : String) (pre : List NetInfo) (r : NetInfo) (post : List NetInfo),
      st.reservations = pre ++ r :: post →
      (∀ x ∈ pre, (x.hostname == h) = false) →
      (r.hostname == h) = true →
      remove_reservation st h =
        { st with reservations :=
            pre ++ (if r.leased then [{ r with allocated := false }] else []) ++ post }) ∧
    (∀ (st : NetState) (mac addr : String) (hn : Option String)
        (pre : List NetInfo) (r : NetInfo) (post : List NetInfo),
      st.reservations = pre ++ r :: post →
      (∀ x ∈ pre, (x.ip == addr) = false) →
      (r.ip == addr) = true →
      del_lease mac addr hn st =
        { st with reservations :=
            pre ++ (if r.allocated then [{ r with leased := false }] else []) ++ post }) ∧
    (∀ h m : String,
      ∃ info st1,
        new_reservation NetState.new h [m] = .ok info st1 ∧
        info.ip = "172.20.0.2" ∧ info.mac = m ∧
        (remove_reservation (add_lease info.mac info.ip none st1) h).reservations =
          [{ mac := m, ip := "172.20.0.2", hostname := h, allocated := false, leased := true }] ∧
        (del_lease info.mac info.ip none
           (remove_reservation (add_lease info.mac info.ip none st1) h)).reservations = []) := by
  refine ⟨?_, ?_, ?_⟩
  · intro st h pre r post hst hpre hr
    unfold remove_reservation
    rw [hst, removeRes_spec pre r post h hpre hr]
  · intro st mac addr hn pre r post hst hpre hr
    unfold del_lease
    rw [hst, delLease_spec pre r post addr hpre hr]
  · intro h m
    have hmark : markAllocated h ([] : List NetInfo) = none := by rfl
    have hp : parseCidr "172.20.0.0/24" = some ⟨2886991872, 24⟩ := by rfl
    have hf : findFree ([] : List NetInfo) (Ipv4Net.hosts ⟨2886991872, 24⟩) = .ok (some 2886991874) := by rfl
    have hip : ipToString 2886991874 = "172.20.0.2" := by rfl
    have hpick : pickMac ([] : List NetInfo) [m] = some m := by rfl
    refine ⟨{ mac := m, ip := "172.20.0.2", hostname := h, allocated := true, leased := false },
            { cidr := "172.20.0.0/24",
              reservations := [{ mac := m, ip := "172.20.0.2", hostname := h,
                                 allocated := true, leased := false }] },
            ?_, rfl, rfl, ?_, ?_⟩
    · show new_reservation ⟨"172.20.0.0/24", []⟩ h [m] = _
      simp only [new_reservation, hmark, hp, hf, hip, hpick, List.nil_append]
    · simp [add_lease, addLease, remove_reservation, removeRes]
    · simp [add_lease, addLease, remove_reservation, removeRes, del_lease, delLease]

/-- C1, witness: the two deletion-condition characterizations applied to
singleton tables, and the lifecycle sequence at a concrete hostname and
MAC. -/
theorem reservation_retention_invariant_witness :
    remove_reservation
        ⟨"172.20.0.0/24",
          [{ mac := "m0", ip := "172.20.0.2", hostname := "vm1",
             allocated := true, leased := true }]⟩ "vm1" =
      ⟨"172.20.0.0/24",
        [{ mac := "m0", ip := "172.20.0.2", hostname := "vm1",
           allocated := false, leased := true }]⟩ ∧
    del_lease "m0" "172.20.0.2" none
        ⟨"172.20.0.0/24",
          [{ mac := "m0", ip := "172.20.0.2", hostname := "vm1",
             allocated := false, leased := true }]⟩ =
      ⟨"172.20.0.0/24", []⟩ ∧
    (∃ info st1,
      new_reservation NetState.new "vm9" ["00:16:3e:01:02:03"] = .ok info st1 ∧
      info.ip = "172.20.0.2" ∧ info.mac = "00:16:3e:01:02:03" ∧
      (remove_reservation (add_lease info.mac info.ip none st1) "vm9").reservations =
        [{ mac := "00:16:3e:01:02:03", ip := "172.20.0.2", hostname := "vm9",
           allocated := false, leased := true }] ∧
      (del_lease info.mac info.ip none
         (remove_reservation (add_lease info.mac info.ip none st1) "vm9")).reservations = []) := by
  refine ⟨?_, ?_, reservation_retention_invariant.2.2 "vm9" "00:16:3e:01:02:03"⟩
  · have h := reservation_retention_invariant.1
      ⟨"172.20.0.0/24",
        [{ mac := "m0", ip := "172.20.0.2", hostname := "vm1",
           allocated := true, leased := true }]⟩ "vm1"
      [] { mac := "m0", ip := "172.20.0.2", hostname := "vm1",
           allocated := true, leased := true } []
      rfl (by simp) (by decide)
    simpa using h
  · have h := reservation_retention_invariant.2.1
      ⟨"172.20.0.0/24",
        [{ mac := "m0", ip := "172.20.0.2", hostname := "vm1",
           allocated := false, leased := true }]⟩ "m0" "172.20.0.2" none
      [] { mac := "m0", ip := "172.20.0.2", hostname := "vm1",
           allocated := false, leased := true } []
      rfl (by simp) (by decide)
    simpa using h

/-! ## Claims C4 and C8: free-address loop characterization -/


/-- An in-use scan that returns false: every stored ip parses and differs from the candidate. -/
lemma inuse_ok_false_spec :
    ∀ (rs : List NetInfo) (a : Nat), inuse a rs = .ok false →
      ∀ r ∈ rs, ∃ ip, parseIpv4 r.ip = some ip ∧ (ip == a) = false := by
  intro rs
  induction rs with
  | nil => intro a _ r hr; exact absurd hr (List.not_mem_nil r)
  | cons x xs ih =>
    intro a h r hr
    rw [inuse] at h
    rcases hp : parseIpv4 x.ip with _ | ip
    · simp only [hp] at h
      exact absurd h (by simp)
    · simp only [hp] at h
      rcases hb : (ip == a)
      · simp only [hb, Bool.false_eq_true, if_false] at h
        rcases List.mem_cons.mp hr with rfl | hr2
        · exact ⟨ip, hp, hb⟩
        · exact ih a h r hr2
      · simp only [hb, if_true] at h
        exact absurd h (by simp)

lemma findFree_some_spec :
    ∀ (hs : List Nat) (rs : List NetInfo) (a : Nat),
      findFree rs hs = .ok (some a) →
      ∃ pre post, hs = pre ++ a :: post ∧
        (∀ b ∈ pre, skipAddr b = true ∨ inuse b rs = .ok true) ∧
        skipAddr a = false ∧ inuse a rs = .ok false := by
  intro hs
  induction hs with
  | nil => intro rs a h; rw [findFree] at h; exact absurd h (by simp)
  | cons b bs ih =>
    intro rs a h
    rw [findFree] at h
    rcases hsk : skipAddr b
    · simp only [hsk, Bool.false_eq_true, if_false] at h
      rcases hu : inuse b rs with _ | bo
      · simp only [hu] at h
        exact absurd h (by simp)
      · simp only [hu] at h
        rcases bo
        · injection h with h2
          injection h2 with h3
          subst h3
          exact ⟨[], bs, rfl, by simp, hsk, hu⟩
        · obtain ⟨pre, post, hbs, hpre, hska, hua⟩ := ih rs a h
          refine ⟨b :: pre, post, by simp [hbs], ?_, hska, hua⟩
          intro y hy
          rcases List.mem_cons.mp hy with rfl | hy2
          · exact Or.inr hu
          · exact hpre y hy2
    · simp only [hsk, if_true] at h
      obtain ⟨pre, post, hbs, hpre, hska, hua⟩ := ih rs a h
      refine ⟨b :: pre, post, by simp [hbs], ?_, hska, hua⟩
      intro y hy
      rcases List.mem_cons.mp hy with rfl | hy2
      · exact Or.inl hsk
      · exact hpre y hy2

/-- The existing-record branch finds nothing when no record carries the
hostname. -/
lemma markAllocated_none :
    ∀ (rs : List NetInfo) (h : String),
      (∀ x ∈ rs, (x.hostname == h) = false) → markAllocated h rs = none := by
  intro rs
  induction rs with
  | nil => intro h _; rfl
  | cons x xs ih =>
    intro h hall
    have hx := hall x (by simp)
    rw [markAllocated]
    simp only [hx, Bool.false_eq_true, if_false]
    rw [ih h (fun y hy => hall y (List.mem_cons_of_mem x hy))]

/-- When every non-skipped host address is in use, the free-address loop
comes up empty. -/
lemma findFree_none_of_allInuse :
    ∀ (hs : List Nat) (rs : List NetInfo),
      (∀ a ∈ hs, skipAddr a = false → inuse a rs = .ok true) →
      findFree rs hs = .ok none := by
  intro hs
  induction hs with
  | nil => intro rs _; rfl
  | cons b bs ih =>
    intro rs hall
    rw [findFree]
    rcases hsk : skipAddr b
    · simp only [hsk, Bool.false_eq_true, if_false]
      rw [hall b (by simp) hsk]
      exact ih rs (fun a ha hs2 => hall a (List.mem_cons_of_mem b ha) hs2)
    · simp only [hsk, if_true]
      exact ih rs (fun a ha hs2 => hall a (List.mem_cons_of_mem b ha) hs2)

/-! ## Claim C4 (corrected) -/

/-- C4, counterexample: in the /29 network `10.0.0.0/29` with
`10.0.0.2`–`10.0.0.5` reserved, `new_reservation` hands out
`10.0.0.6` — the LAST USABLE host address of the network (the last
element of `hosts()`), which the claim says is always skipped.  The
skip test matches dotted strings ending in `.1` or `.255`, not the
first and last usable addresses. -/
theorem newReservation_lastUsable_cex :
    new_reservation
        ⟨"10.0.0.0/29",
          [⟨"00:16:3e:00:00:02", "10.0.0.2", "h2", true, false⟩,
           ⟨"00:16:3e:00:00:03", "10.0.0.3", "h3", true, false⟩,
           ⟨"00:16:3e:00:00:04", "10.0.0.4", "h4", true, false⟩,
           ⟨"00:16:3e:00:00:05", "10.0.0.5", "h5", true, false⟩]⟩
        "newvm" ["00:16:3e:00:00:09"] =
      .ok ⟨"00:16:3e:00:00:09", "10.0.0.6", "newvm", true, false⟩
          ⟨"10.0.0.0/29",
            [⟨"00:16:3e:00:00:02", "10.0.0.2", "h2", true, false⟩,
             ⟨"00:16:3e:00:00:03", "10.0.0.3", "h3", true, false⟩,
             ⟨"00:16:3e:00:00:04", "10.0.0.4", "h4", true, false⟩,
             ⟨"00:16:3e:00:00:05", "10.0.0.5", "h5", true, false⟩,
             ⟨"00:16:3e:00:00:09", "10.0.0.6", "newvm", true, false⟩]⟩ ∧
    parseCidr "10.0.0.0/29" = some ⟨167772160, 29⟩ ∧
    Ipv4Net.hosts ⟨167772160, 29⟩ =
      [167772161, 167772162, 167772163, 167772164, 167772165, 167772166] ∧
    (Ipv4Net.hosts ⟨167772160, 29⟩).getLast? = some 167772166 ∧
    ipToString 167772166 = "10.0.0.6" :=
  ⟨by rfl, by rfl, by rfl, by rfl, by rfl⟩

/-- C4, amended: for a hostname with no existing record,
`new_reservation` walks the host addresses of the configured CIDR in
ascending order, skips exactly the addresses whose dotted form ends in
`.1` or `.255` (for the default /24 this skips the first usable address
but NOT the last usable one), and returns the first remaining address
that no existing record carries; the new record is appended to the
table. -/
theorem newReservation_ip_selection :
    ∀ (st : NetState) (h : String) (macs : List String) (info : NetInfo) (st' : NetState),
      (∀ x ∈ st.reservations, (x.hostname == h) = false) →
      new_reservation st h macs = .ok info st' →
      ∃ net a pre post,
        parseCidr st.cidr = some net ∧
        net.hosts = pre ++ a :: post ∧
        info.ip = ipToString a ∧
        skipAddr a = false ∧
        (∀ b ∈ pre, skipAddr b = true ∨ inuse b st.reservations = .ok true) ∧
        (∀ r ∈ st.reservations, ∃ ip, parseIpv4 r.ip = some ip ∧ (ip == a) = false) ∧
        st'.reservations = st.reservations ++ [info] ∧
        info.hostname = h ∧ info.allocated = true ∧ info.leased = false := by
  intro st h macs info st' hnone heq
  unfold new_reservation at heq
  rw [markAllocated_none st.reservations h hnone] at heq
  rcases hp : parseCidr st.cidr with _ | net
  · simp only [hp] at heq
    exact absurd heq (by simp)
  · simp only [hp] at heq
    rcases hf : findFree st.reservations net.hosts with _ | oa
    · simp only [hf] at heq
      exact absurd heq (by simp)
    · simp only [hf] at heq
      rcases oa with _ | a
      · exact absurd heq (by simp)
      · rcases hpm : pickMac st.reservations macs with _ | mac
        · simp only [hpm] at heq
          exact absurd heq (by simp)
        · simp only [hpm] at heq
          obtain ⟨pre, post, hhs, hpre, hska, hua⟩ :=
            findFree_some_spec net.hosts st.reservations a hf
          injection heq with h1 h2
          subst h1
          subst h2
          exact ⟨net, a, pre, post, rfl, hhs, rfl, hska, hpre,
            inuse_ok_false_spec st.reservations a hua, rfl, rfl, rfl, rfl⟩

/-- C4, witness: allocating the first address in the fresh default /24
table instantiates the amended selection property. -/
theorem newReservation_ip_selection_witness :
    ∃ net a pre post,
      parseCidr NetState.new.cidr = some net ∧
      net.hosts = pre ++ a :: post ∧
      (⟨"00:16:3e:07:07:07", "172.20.0.2", "vmw", true, false⟩ : NetInfo).ip = ipToString a ∧
      skipAddr a = false ∧
      (∀ b ∈ pre, skipAddr b = true ∨ inuse b NetState.new.reservations = .ok true) ∧
      (∀ r ∈ NetState.new.reservations, ∃ ip, parseIpv4 r.ip = some ip ∧ (ip == a) = false) ∧
      (⟨"172.20.0.0/24",
        [⟨"00:16:3e:07:07:07", "172.20.0.2", "vmw", true, false⟩]⟩ : NetState).reservations =
        NetState.new.reservations ++ [⟨"00:16:3e:07:07:07", "172.20.0.2", "vmw", true, false⟩] ∧
      (⟨"00:16:3e:07:07:07", "172.20.0.2", "vmw", true, false⟩ : NetInfo).hostname = "vmw" ∧
      (⟨"00:16:3e:07:07:07", "172.20.0.2", "vmw", true, false⟩ : NetInfo).allocated = true ∧
      (⟨"00:16:3e:07:07:07", "172.20.0.2", "vmw", true, false⟩ : NetInfo).leased = false :=
  newReservation_ip_selection NetState.new "vmw" ["00:16:3e:07:07:07"]
    ⟨"00:16:3e:07:07:07", "172.20.0.2", "vmw", true, false⟩
    ⟨"172.20.0.0/24", [⟨"00:16:3e:07:07:07", "172.20.0.2", "vmw", true, false⟩]⟩
    (by simp [NetState.new]) (by rfl)

/-! ## Claim C8 (corrected) -/

/-- C8, counterexample: in `10.0.0.0/29` every host address other than
the first usable (`10.0.0.1`) and the last usable (`10.0.0.6`) already
carries a record — the claim's premise — yet `new_reservation` does not
fail with a capacity error: it succeeds, hands out the last usable
address `10.0.0.6`, and appends a fifth record. -/
theorem newReservation_capacity_cex :
    (∀ a ∈ Ipv4Net.hosts ⟨167772160, 29⟩, a ≠ 167772161 → a ≠ 167772166 →
      ∃ r ∈ [(⟨"00:16:3e:00:00:02", "10.0.0.2", "c2", true, false⟩ : NetInfo),
             ⟨"00:16:3e:00:00:03", "10.0.0.3", "c3", true, false⟩,
             ⟨"00:16:3e:00:00:04", "10.0.0.4", "c4", true, false⟩,
             ⟨"00:16:3e:00:00:05", "10.0.0.5", "c5", true, false⟩],
        parseIpv4 r.ip = some a) ∧
    parseCidr "10.0.0.0/29" = some ⟨167772160, 29⟩ ∧
    (Ipv4Net.hosts ⟨167772160, 29⟩).head? = some 167772161 ∧
    (Ipv4Net.hosts ⟨167772160, 29⟩).getLast? = some 167772166 ∧
    new_reservation
        ⟨"10.0.0.0/29",
          [⟨"00:16:3e:00:00:02", "10.0.0.2", "c2", true, false⟩,
           ⟨"00:16:3e:00:00:03", "10.0.0.3", "c3", true, false⟩,
           ⟨"00:16:3e:00:00:04", "10.0.0.4", "c4", true, false⟩,
           ⟨"00:16:3e:00:00:05", "10.0.0.5", "c5", true, false⟩]⟩
        "capvm" ["00:16:3e:00:00:0a"] =
      .ok ⟨"00:16:3e:00:00:0a", "10.0.0.6", "capvm", true, false⟩
          ⟨"10.0.0.0/29",
            [⟨"00:16:3e:00:00:02", "10.0.0.2", "c2", true, false⟩,
             ⟨"00:16:3e:00:00:03", "10.0.0.3", "c3", true, false⟩,
             ⟨"00:16:3e:00:00:04", "10.0.0.4", "c4", true, false⟩,
             ⟨"00:16:3e:00:00:05", "10.0.0.5", "c5", true, false⟩,
             ⟨"00:16:3e:00:00:0a", "10.0.0.6", "capvm", true, false⟩]⟩ :=
  ⟨by decide, by rfl, by rfl, by rfl, by rfl⟩

/-- C8, amended: when every host address of the CIDR that the code does
not skip (those whose dotted form does not end in `.1` or `.255`)
already carries a record, `new_reservation` aborts with the
capacity-exhaustion panic `"No more free addresses on network"`; the
panic fires before any record is appended and before `save`, so the
persisted table is unchanged. -/
theorem newReservation_capacity :
    ∀ (st : NetState) (h : String) (macs : List String) (net : Ipv4Net),
      (∀ x ∈ st.reservations, (x.hostname == h) = false) →
      parseCidr st.cidr = some net →
      (∀ a ∈ net.hosts, skipAddr a = false → inuse a st.reservations = .ok true) →
      new_reservation st h macs = .capacityPanic := by
  intro st h macs net hnone hp hall
  unfold new_reservation
  rw [markAllocated_none st.reservations h hnone]
  simp only [hp]
  rw [findFree_none_of_allInuse net.hosts st.reservations hall]

/-- C8, witness: the /29 network with all five non-skipped host
addresses reserved is full. -/
theorem newReservation_capacity_witness :
    new_reservation
        ⟨"10.0.0.0/29",
          [⟨"00:16:3e:00:00:02", "10.0.0.2", "w2", true, false⟩,
           ⟨"00:16:3e:00:00:03", "10.0.0.3", "w3", true, false⟩,
           ⟨"00:16:3e:00:00:04", "10.0.0.4", "w4", true, false⟩,
           ⟨"00:16:3e:00:00:05", "10.0.0.5", "w5", true, false⟩,
           ⟨"00:16:3e:00:00:06", "10.0.0.6", "w6", true, false⟩]⟩
        "fullvm" [] = .capacityPanic :=
  newReservation_capacity _ "fullvm" [] ⟨167772160, 29⟩
    (by decide) (by rfl) (by decide)

/-! ## Claim C7 (confirmed) -/

/-- C7: while `running()` is false, `stop`/`cont`/`status`/`destroy`
each return the error `"VM not started"` having written no protocol
command, and `start` launches via the Process Supervisor; while
`running()` is true, `start` errors with `"VM already started"`, and
each lifecycle call opens a fresh Protocol Client (visible as the
`qmp_capabilities` negotiation of `Monitor::connect`) and writes
exactly its corresponding command — `quit` for `destroy`. -/
theorem vm_ops_gating :
    ∀ (r : Bool) (w : MonWorld),
      (r = false →
        vm_stop r w = (.error "VM not started", []) ∧
        vm_cont r w = (.error "VM not started", []) ∧
        vm_status r w = (.error "VM not started", []) ∧
        vm_destroy r w = (.error "VM not started", []) ∧
        vm_start r = .ok .launch) ∧
      (r = true → vm_start r = .error "VM already started") ∧
      (r = true → w.greetingOk = true → ∀ e, w.negotiateReply = .ret e →
        (vm_stop r w).2 = ["qmp_capabilities", "stop"] ∧
        (vm_cont r w).2 = ["qmp_capabilities", "cont"] ∧
        (vm_status r w).2 = ["qmp_capabilities", "query-status"] ∧
        (vm_destroy r w).2 = ["qmp_capabilities", "quit"]) := by
  intro r w
  refine ⟨?_, ?_, ?_⟩
  · rintro rfl
    refine ⟨?_, ?_, ?_, ?_, rfl⟩ <;> rfl
  · rintro rfl
    rfl
  · rintro rfl hg e hneg
    refine ⟨?_, ?_, ?_, ?_⟩ <;>
      simp only [vm_stop, vm_cont, vm_status, vm_destroy, vmCommand, monitorConnect,
        monitorExecute, hg, hneg, Bool.not_true, Bool.false_eq_true, if_false] <;>
      first
        | (rcases w.cmdReply "stop" <;> rfl)
        | (rcases w.cmdReply "cont" <;> rfl)
        | (rcases w.cmdReply "query-status" <;> rfl)
        | (rcases w.cmdReply "quit" <;> rfl)

/-- C7, witness: the gating at a monitor world whose greeting,
negotiation and command replies all succeed. -/
theorem vm_ops_gating_witness :
    (vm_stop true ⟨true, .ret [], fun _ => .ret []⟩).2 = ["qmp_capabilities", "stop"] ∧
    (vm_destroy true ⟨true, .ret [], fun _ => .ret []⟩).2 = ["qmp_capabilities", "quit"] ∧
    vm_stop false ⟨true, .ret [], fun _ => .ret []⟩ = (.error "VM not started", []) ∧
    vm_start false = .ok .launch ∧
    vm_start true = .error "VM already started" := by
  refine ⟨?_, ?_, ?_, ?_, ?_⟩
  · exact ((vm_ops_gating true ⟨true, .ret [], fun _ => .ret []⟩).2.2 rfl rfl [] rfl).1
  · exact ((vm_ops_gating true ⟨true, .ret [], fun _ => .ret []⟩).2.2 rfl rfl [] rfl).2.2.2
  · exact ((vm_ops_gating false ⟨true, .ret [], fun _ => .ret []⟩).1 rfl).1
  · exact ((vm_ops_gating false ⟨true, .ret [], fun _ => .ret []⟩).1 rfl).2.2.2.2
  · exact (vm_ops_gating true ⟨true, .ret [], fun _ => .ret []⟩).2.1 rfl

/-! ## Claim C2 (confirmed) -/

/-- The per-buffer loop over a run of decodable event values followed
by a response value: every event is logged in order and the response
ends the loop. -/

lemma drainVals_events_then_reply :
    ∀ (evJs : List Json) (evs : List QmpEvent) (acc : List QmpEvent)
      (rv : Json) (rest : List Json) (resp : QmpResponse),
      evJs.mapM decodeEvent = some evs →
      (∀ v ∈ evJs, (v.getKey "event").isSome = true) →
      (rv.getKey "event").isSome = false →
      decodeResponse rv = some resp →
      drainVals (evJs ++ rv :: rest) acc = (acc ++ evs, some (.reply resp)) := by
  intro evJs
  induction evJs with
  | nil =>
    intro evs acc rv rest resp hm hall hrv hresp
    simp only [List.mapM_nil, pure, Option.some.injEq] at hm
    subst hm
    simp only [List.nil_append, drainVals, hrv, Bool.false_eq_true, if_false, hresp,
      List.append_nil]
  | cons v vs ih =>
    intro evs acc rv rest resp hm hall hrv hresp
    rcases hde : decodeEvent v with _ | e
    · rw [List.mapM_cons, hde] at hm
      simp at hm
    · rw [List.mapM_cons, hde] at hm
      rcases hmv : vs.mapM decodeEvent with _ | es
      · rw [hmv] at hm
        simp at hm
      · rw [hmv] at hm
        simp at hm
        subst hm
        have hv := hall v (by simp)
        simp only [List.cons_append, drainVals, hv, if_true, hde, List.append_eq]
        rw [ih es (acc ++ [e]) rv rest resp hmv (fun y hy => hall y (by simp [hy])) hrv hresp]
        simp

/-- C2: the drain loop splits each read buffer into top-level JSON
values at carriage returns; values carrying an `event` key are decoded
and surfaced only as log events, never returned; the first value
carrying `return` or `error` is decoded and returned immediately,
ending the loop even if further values or further buffered chunks
remain.  The repository regression buffer — one event object and one
return object separated by CR-LF — parses into exactly two distinct
values, with the event logged and the return object returned as the
command result. -/
theorem qapi_stream_event_reply :
    (∀ (c : List Char) (more : List (List Char)) (evJs : List Json) (evs : List QmpEvent)
       (rv : Json) (rest : List Json) (resp : QmpResponse),
      parse_qapi_stream c = some (evJs ++ rv :: rest) →
      evJs.mapM decodeEvent = some evs →
      (∀ v ∈ evJs, (v.getKey "event").isSome = true) →
      (rv.getKey "event").isSome = false →
      decodeResponse rv = some resp →
      read_response (c :: more) = (evs, .reply resp)) ∧
    parse_qapi_stream qapiTestBuf.data =
      some [Json.obj [("timestamp", Json.obj [("seconds", Json.num 1677200460),
                                              ("microseconds", Json.num 774479)]),
                      ("event", Json.str "STOP")],
            Json.obj [("return", Json.obj [])]] ∧
    Json.obj [("timestamp", Json.obj [("seconds", Json.num 1677200460),
                                      ("microseconds", Json.num 774479)]),
              ("event", Json.str "STOP")] ≠ Json.obj [("return", Json.obj [])] ∧
    read_response [qapiTestBuf.data] =
      ([⟨⟨1677200460, 774479⟩, "STOP", []⟩], .reply (.ret [])) := by
  refine ⟨?_, by rfl, ?_, by rfl⟩
  · intro c more evJs evs rv rest resp hp hm hall hrv hresp
    unfold read_response
    rw [readResponseWith]
    simp only [hp]
    rw [drainVals_events_then_reply evJs evs [] rv rest resp hm hall hrv hresp]
    simp
  · intro hEq
    exact Option.noConfusion (congrArg (fun v => Json.getKey v "event") hEq)

/-- C2, witness: a buffer holding a single return object and no events
is returned directly with nothing logged. -/
theorem qapi_stream_event_reply_witness :
    read_response [("\x7b\"return\": \x7b\x7d\x7d\r\n").data] = ([], .reply (.ret [])) := by
  have h := qapi_stream_event_reply.1 ("\x7b\"return\": \x7b\x7d\x7d\r\n").data [] [] []
    (Json.obj [("return", Json.obj [])]) [] (.ret [])
    (by rfl) (by rfl) (by simp) (by rfl) (by rfl)
  exact h
